import Mathlib

/-!
Verification development for the Muesli journaling pipeline.

This file gives a shallow embedding, in Lean 4, of the parts of the
source that the specification claims are about:

* the job-runner state machine over entry rows (src/lib/job-runner.ts),
  embedded as a record of the mutable entry columns plus one Lean
  function per updateEntry call site of the source, composed into the
  concrete interleavings that the runner can execute;
* the stuck-entry selection of the store (getStuckEntries in db.ts),
  embedded together with the exact text format of the timestamps that
  the worker writes (Date.toISOString) and that SQLite datetime(now)
  produces, since the SQL comparison is a plain string comparison;
* the chunked-transcription engine (transcribe.ts): the hallucination
  detector, the overlap-aware merge, and the split geometry of
  splitAudio (audio.ts);
* the note writer (services/vault.ts): filename, relative path and the
  full generated document text;
* the marker parser (markdown.ts) with a character-level embedding of
  its two regular expressions;
* the audio-serving HTTP route (api/audio/[...path]) and the audio
  upload route (api/entries/[id]/audio), embedded as pure decision
  functions from the request data to the produced status and effects.

Numbers that are IEEE doubles in the source are modelled as rationals;
all inputs used in the theorems are far from any rounding boundary.
Timezone projection (the date-fns-tz library, external to the repo) is
modelled for fixed-offset zones via the standard Gregorian calendar
algorithms. POSIX path resolution is modelled component-wise with the
working directory at the filesystem root.
-/

namespace Muesli

/-- Job stages, from the JobStage union in types/index.ts. -/
inductive JobStage where
  | pending
  | queued
  | normalizing
  | transcribing
  | awaiting_review
  | awaiting_prompts
  | generating
  | writing
  | completed
  | failed
  | cancel_requested
  | cancelled
deriving DecidableEq, Repr

open JobStage

/-- The mutable columns of an entry row that the job runner touches
(Entry in types/index.ts; identity and temporal columns that no claim
mentions are kept out of the record). -/
structure EntryState where
  stage : JobStage
  stageMessage : Option String
  errorMessage : Option String
  lockedBy : Option String
  lockedAt : Option String
  heartbeatAt : Option String
  originalAudioRelpath : Option String
  normalizedAudioRelpath : Option String
  audioDurationSeconds : Option ℚ
  rawTranscript : Option String
  rawTranscriptLockedAt : Option String
deriving DecidableEq, Repr

/-- Human-readable stage message (getStageMessage in job-runner.ts). -/
def getStageMessage : JobStage → String
  | pending => "Waiting to start"
  | queued => "In queue"
  | normalizing => "Converting audio..."
  | transcribing => "Transcribing audio..."
  | awaiting_review => "Waiting for review"
  | awaiting_prompts => "Waiting for prompts"
  | generating => "Generating journal..."
  | writing => "Writing note..."
  | completed => "Complete"
  | failed => "Failed"
  | cancel_requested => "Cancelling..."
  | cancelled => "Cancelled"

/-- queueEntry (job-runner.ts): only a pending entry may be queued; the
update sets stage queued with its message.  The Bool reports whether the
guard held (the source throws otherwise). -/
def queueEntry (e : EntryState) : Bool × EntryState :=
  if e.stage = pending then
    (true, { e with stage := queued, stageMessage := some "Queued for processing" })
  else
    (false, e)

/-- tryLockJob (job-runner.ts): lease acquisition.  Succeeds only when
the entry is still queued and unlocked or self-locked; on success it
stamps lockedBy, lockedAt and heartbeatAt. -/
def tryLockJob (runnerId now : String) (e : EntryState) : Bool × EntryState :=
  if e.stage ≠ queued then (false, e)
  else if e.lockedBy ≠ none ∧ e.lockedBy ≠ some runnerId then (false, e)
  else
    (true, { e with lockedBy := some runnerId, lockedAt := some now, heartbeatAt := some now })

/-- The stage-entry update performed by checkAndRunStage before running a
stage body (job-runner.ts). -/
def setStage (s : JobStage) (e : EntryState) : EntryState :=
  { e with stage := s, stageMessage := some (getStageMessage s) }

/-- isCancelled (job-runner.ts): the cooperative cancellation check the
worker performs before and after each stage body. -/
def isCancelled (e : EntryState) : Bool :=
  e.stage = cancel_requested

/-- finalizeCancellation (job-runner.ts): marks the entry cancelled and
clears the lease (the normalized WAV deletion is a filesystem effect
with no entry column behind it). -/
def finalizeCancellation (e : EntryState) : EntryState :=
  { e with stage := cancelled, stageMessage := some "Cancelled by user", lockedBy := none }

/-- The update at the end of the normalizing stage body (job-runner.ts):
records the normalized relpath and the probed duration. -/
def normalizeDone (relpath : String) (duration : ℚ) (e : EntryState) : EntryState :=
  { e with normalizedAudioRelpath := some relpath, audioDurationSeconds := some duration }

/-- The update at the end of the transcribing stage body (job-runner.ts):
stores the transcription output and stamps the lock timestamp.  The
source performs this write unconditionally, whether or not
rawTranscriptLockedAt is already set. -/
def transcribeDone (text now : String) (e : EntryState) : EntryState :=
  { e with rawTranscript := some text, rawTranscriptLockedAt := some now }

/-- The update that parks an entry for transcript review at the end of
runJob (job-runner.ts). -/
def parkAwaitingReview (e : EntryState) : EntryState :=
  { e with stage := awaiting_review,
           stageMessage := some "Waiting for transcript review",
           lockedBy := none }

/-- The catch handler of processNextJob (job-runner.ts): any error thrown
out of runJob marks the entry failed, whatever its current stage is. -/
def failCatch (msg : String) (e : EntryState) : EntryState :=
  { e with stage := failed, errorMessage := some msg, lockedBy := none }

/-- Cancellable stages (requestCancel in job-runner.ts). -/
def cancellableStages : List JobStage :=
  [queued, normalizing, transcribing, generating, writing]

/-- requestCancel (job-runner.ts): accepted only from a cancellable
stage; acceptance stamps cancel_requested (the SIGTERM to the live child
is a process effect modelled by the scenario below).  The Bool is the
returned acceptance flag. -/
def requestCancel (e : EntryState) : Bool × EntryState :=
  if e.stage ∈ cancellableStages then
    (true, { e with stage := cancel_requested, stageMessage := some "Cancellation requested" })
  else
    (false, e)

/-- The reset that processNextJob applies to each stuck entry
(job-runner.ts): back to queued, reset message, lease cleared. -/
def resetStuck (e : EntryState) : EntryState :=
  { e with stage := queued, lockedBy := none, lockedAt := none,
           stageMessage := some "Reset after timeout" }

/-- Stage set used by getStuckEntries (db.ts). -/
def runningStages : List JobStage :=
  [normalizing, transcribing, generating, writing]

/-! Timestamp text formats.  The worker writes heartbeat and lock
columns with Date.toISOString, which always renders as
YYYY-MM-DDTHH:MM:SS.sssZ; the stuck query compares against
datetime(now, -5 minutes), which SQLite renders as
YYYY-MM-DD HH:MM:SS.  Both are embedded as formatting functions from
civil UTC components so that the comparison in stuckSelect is the same
plain string comparison SQLite performs. -/

/-- A natural number padded with leading zeros to the given width. -/
def padNum (width n : Nat) : String :=
  let s := toString n
  String.mk (List.replicate (width - s.length) '0') ++ s

/-- Shape of JavaScript Date.toISOString for a UTC civil time. -/
def toISOString (y mo d h mi s ms : Nat) : String :=
  padNum 4 y ++ "-" ++ padNum 2 mo ++ "-" ++ padNum 2 d ++ "T" ++
    padNum 2 h ++ ":" ++ padNum 2 mi ++ ":" ++ padNum 2 s ++ "." ++ padNum 3 ms ++ "Z"

/-- Shape of the TEXT value produced by the SQLite datetime function. -/
def sqliteDatetime (y mo d h mi s : Nat) : String :=
  padNum 4 y ++ "-" ++ padNum 2 mo ++ "-" ++ padNum 2 d ++ " " ++
    padNum 2 h ++ ":" ++ padNum 2 mi ++ ":" ++ padNum 2 s

/-- Minutes elapsed from midnight of a given day, to express how stale a
same-day heartbeat is in the sense of the specification. -/
def minutesOfDay (h mi : Nat) : Nat := 60 * h + mi

/-! String primitives.  The JavaScript string operations the source uses
are embedded by structural recursion over the character list, which also
matches the byte-wise semantics of the external systems involved (ASCII
data throughout). -/

/-- Byte-wise less-than of two character lists: the BINARY collation
with which SQLite compares two TEXT operands. -/
def memcmpLt : List Char → List Char → Bool
  | [], [] => false
  | [], _ :: _ => true
  | _ :: _, [] => false
  | a :: as, b :: bs =>
    if a < b then true else if b < a then false else memcmpLt as bs

/-- JavaScript startsWith. -/
def jsStartsWith (s pre : String) : Bool :=
  pre.toList.isPrefixOf s.toList

/-- JavaScript trim: strip whitespace from both ends. -/
def jsTrim (s : String) : String :=
  String.mk (((s.toList.dropWhile Char.isWhitespace).reverse.dropWhile
    Char.isWhitespace).reverse)

/-- JavaScript slice of the first n characters. -/
def jsTake (s : String) (n : Nat) : String :=
  String.mk (s.toList.take n)

/-- JavaScript array join with a separator. -/
def joinSep (sep : String) : List String → String
  | [] => ""
  | [x] => x
  | x :: y :: rest => x ++ sep ++ joinSep sep (y :: rest)

/-- Split of a character list at a separator character, keeping empty
pieces; acc holds the read piece reversed. -/
def splitChAux (sep : Char) : List Char → List Char → List String
  | [], acc => [String.mk acc.reverse]
  | c :: r, acc =>
    if c = sep then String.mk acc.reverse :: splitChAux sep r []
    else splitChAux sep r (c :: acc)

/-- Split of a string on the newline character, as the JavaScript split
the parser performs on the document. -/
def splitNl (s : String) : List String :=
  splitChAux '\n' s.toList []

/-- Components of a slash-separated path. -/
def splitSlash (s : String) : List String :=
  splitChAux '/' s.toList []

/-- Selection predicate of getStuckEntries (db.ts): stage in the running
set and heartbeat_at textually smaller than the SQLite threshold string.
SQLite compares two TEXT values with binary collation, and a NULL
heartbeat satisfies no comparison, so a missing heartbeat never
selects. -/
def stuckSelect (threshold : String) (e : EntryState) : Bool :=
  decide (e.stage ∈ runningStages) &&
    match e.heartbeatAt with
    | none => false
    | some hb => memcmpLt hb.toList threshold.toList

/-! Scenario for cancellation during a live child process.  The runner
awaits the transcribe promise while the HTTP cancel handler runs
requestCancel, which stamps cancel_requested on the row and SIGTERMs
the registered child.  whisper.cpp then exits with a nonzero code, the
transcribe promise rejects, the rejection propagates out of
checkAndRunStage and runJob, and the catch block of processNextJob
performs the final update.  Each element of the list below is the store
state after one updateEntry call of that interleaving, in source
order. -/

/-- Entry state right after audio upload queued it: stage queued, no
lease, no transcript. -/
def uploadedEntry : EntryState :=
  { stage := queued
    stageMessage := some "Queued for processing"
    errorMessage := none
    lockedBy := none
    lockedAt := none
    heartbeatAt := none
    originalAudioRelpath := some "journal/audio/e1-original.webm"
    normalizedAudioRelpath := none
    audioDurationSeconds := none
    rawTranscript := none
    rawTranscriptLockedAt := none }

/-- Store states of the cancel-during-transcribing interleaving, in the
order the source writes them.  The final write is the catch handler of
processNextJob firing on the rejection of the killed whisper child. -/
def cancelKillTrace : List EntryState :=
  let e0 := uploadedEntry
  let e1 := (tryLockJob "runner-w1" "2026-10-11T12:00:00.000Z" e0).2
  let e2 := setStage normalizing e1
  let e3 := normalizeDone "journal/audio/e1-normalized.wav" 30 e2
  let e4 := setStage transcribing e3
  let e5 := (requestCancel e4).2
  let e6 := failCatch "whisper.cpp failed with code null: " e5
  [e0, e1, e2, e3, e4, e5, e6]

/-! Chunked-transcription engine (services/transcribe.ts).  The pure
computations (word splitting, hallucination detection, merge) are
embedded verbatim; process spawning is outside the model. -/

mutual

/-- Worker of the JavaScript split on runs of whitespace while inside a
token; acc holds the token characters read so far, reversed. -/
def jsSplitWsAux : List Char → List Char → List String
  | [], acc => [String.mk acc.reverse]
  | c :: rest, acc =>
    if c.isWhitespace then String.mk acc.reverse :: jsSplitWsSkip rest
    else jsSplitWsAux rest (c :: acc)

/-- Worker of the JavaScript split while inside a whitespace run; a run
that reaches the end of the input leaves a trailing empty token, exactly
as the regular-expression split does. -/
def jsSplitWsSkip : List Char → List String
  | [] => [""]
  | c :: rest =>
    if c.isWhitespace then jsSplitWsSkip rest
    else jsSplitWsAux rest [c]

end

/-- JavaScript split on the whitespace regular expression: tokens between
maximal whitespace runs, keeping the empty token that a leading or
trailing run produces (so a text with a trailing blank yields a trailing
empty token). -/
def jsSplitWs (s : String) : List String :=
  jsSplitWsAux s.toList []

/-- ASCII word character of the JavaScript regular-expression class. -/
def isWordChar (c : Char) : Bool :=
  c.isAlpha || c.isDigit || c = '_'

/-- normalizeWord (transcribe.ts): lowercase, then strip every non-word
character.  The hallucination detector inlines the same expression. -/
def normalizeWord (w : String) : String :=
  String.mk ((w.toList.map Char.toLower).filter isWordChar)

/-- Full-string lowercase, as the JavaScript toLowerCase call. -/
def jsToLower (s : String) : String :=
  String.mk (s.toList.map Char.toLower)

/-- Rendering of the JavaScript toFixed with zero digits, on the
rational model of the involved doubles. -/
def ratToFixed0 (q : ℚ) : String :=
  toString (round q)

/-- Result record of the hallucination detector (transcribe.ts). -/
structure HallucinationCheck where
  isHallucination : Bool
  reason : Option String
  confidence : ℚ
deriving DecidableEq, Repr

/-- The phrase words.slice(i, i + len).join(space).toLowerCase() used by
the repetition check. -/
def phraseSlice (ws : List String) (i len : Nat) : String :=
  jsToLower (joinSep " " ((ws.drop i).take len))

/-- The inner while loop of the repetition check: starting at pos, count
how many further back-to-back copies of the phrase follow; fuel bounds
the recursion and is always at least the word count. -/
def countRepsAux (ws : List String) (phrase : String) (phraseLen : Nat) :
    Nat → Nat → Nat → Nat
  | 0, _, count => count
  | fuel + 1, pos, count =>
    if pos + phraseLen ≤ ws.length ∧ phraseSlice ws pos phraseLen = phrase then
      countRepsAux ws phrase phraseLen fuel (pos + phraseLen) (count + 1)
    else count

/-- Check 2 of detectHallucination: a contiguous phrase of 5 to 12 words
repeating at least 3 times back-to-back; returns the repeat count and
the phrase of the first hit in scan order. -/
def repeatedPhraseCheck (ws : List String) : Option (Nat × String) :=
  (List.range 8).findSome? fun pl =>
    let phraseLen := pl + 5
    if ws.length < phraseLen * 3 then none
    else
      (List.range (ws.length - phraseLen * 3 + 1)).findSome? fun i =>
        let phrase := phraseSlice ws i phraseLen
        let rc := countRepsAux ws phrase phraseLen ws.length (i + phraseLen) 1
        if 3 ≤ rc then some (rc, phrase) else none

/-- Worker of firstDistinct; the fuel only bounds the recursion and the
initial length of the list always suffices, since filtering never grows
a list. -/
def firstDistinctAux : Nat → List String → List String
  | 0, _ => []
  | _, [] => []
  | fuel + 1, x :: xs => x :: firstDistinctAux fuel (xs.filter (· ≠ x))

/-- Distinct elements in order of first occurrence, the iteration order
of the JavaScript Map that check 3 builds. -/
def firstDistinct (l : List String) : List String :=
  firstDistinctAux l.length l

/-- Check 3 of detectHallucination: some normalized token longer than 2
characters accounts for more than 20 percent of all tokens and appears
more than 10 times.  Word counts ignore short tokens but the total is
the full token count, as in the source. -/
def dominantWordCheck (words : List String) : Option (String × Nat) :=
  let norms := (words.map normalizeWord).filter (fun n => 2 < n.length)
  let total : ℚ := words.length
  (firstDistinct norms).findSome? fun w =>
    let c := (norms.filter (· = w)).length
    if 10 < c ∧ total * (2 / 10) < (c : ℚ) then some (w, c) else none

/-- detectHallucination (transcribe.ts): the four rules in source order,
each with its reason text and confidence.  The source binds the expected
character count and the word list to local variables; they are inlined
here, with identical values at every use. -/
def detectHallucination (text : String) (expectedDurationSeconds : ℚ) :
    HallucinationCheck :=
  if (jsTrim text).length = 0 then
    { isHallucination := true, reason := some "Empty output", confidence := 1 }
  else if (text.length : ℚ) < expectedDurationSeconds * 5 * (3 / 10) then
    { isHallucination := true
      reason := some ("Output too short: " ++ toString text.length ++ " chars for "
        ++ ratToFixed0 expectedDurationSeconds ++ "s audio (expected ~"
        ++ ratToFixed0 (expectedDurationSeconds * 5) ++ ")")
      confidence := 8 / 10 }
  else
    match repeatedPhraseCheck (jsSplitWs text) with
    | some (rc, phrase) =>
      { isHallucination := true
        reason := some ("Phrase repeated " ++ toString rc ++ " times: \""
          ++ jsTake phrase 50 ++ (if 50 < phrase.length then "..." else "") ++ "\"")
        confidence := 95 / 100 }
    | none =>
      match dominantWordCheck (jsSplitWs text) with
      | some (w, c) =>
        { isHallucination := true
          reason := some ("Word \"" ++ w ++ "\" repeated " ++ toString c
            ++ " times (" ++ ratToFixed0 ((c : ℚ) / ((jsSplitWs text).length : ℚ) * 100)
            ++ "% of text)")
          confidence := 7 / 10 }
      | none => { isHallucination := false, reason := none, confidence := 0 }

/-- countMatchingWords (transcribe.ts): positional matches between the
tail of the first array and the head of the second, over the shorter
length. -/
def countMatchingWords (arr1 arr2 : List String) : Nat :=
  let minLen := min arr1.length arr2.length
  ((List.range minLen).filter fun i =>
    arr1.getD (arr1.length - minLen + i) "" = arr2.getD i "").length

/-- JavaScript array slice with a negative start: the last n elements,
the whole array when n is zero (negative zero is zero). -/
def jsSliceLast (l : List String) (n : Nat) : List String :=
  if n = 0 then l else l.drop (l.length - n)

/-- JavaScript array slice over a start and stop index. -/
def jsSliceRange (l : List String) (start stop : Nat) : List String :=
  (l.drop start).take (stop - start)

/-- Ceiling of a nonnegative rational as a natural number, the
Math.ceil of the source. -/
def ratCeilNat (q : ℚ) : Nat :=
  (⌈q⌉ : ℤ).toNat

/-- The for loop of mergeTranscripts over the chunk texts; merged is the
accumulated list of accepted pieces and k the estimated overlap word
count. -/
def mergeLoop (k : Nat) : List String → List String → List String
  | [], merged => merged
  | t :: rest, merged =>
    let currentText := jsTrim t
    if merged.isEmpty then mergeLoop k rest [currentText]
    else
      let prevText := joinSep " " merged
      let prevWords := jsSplitWs prevText
      let currentWords := jsSplitWs currentText
      let prevTail := (jsSliceLast prevWords (k * 2)).map normalizeWord
      let searchLimit := min currentWords.length (k * 3)
      let best := (List.range searchLimit).foldl
        (fun (acc : Nat × Nat) start =>
          let ml := countMatchingWords prevTail
            ((jsSliceRange currentWords start (start + k)).map normalizeWord)
          if acc.2 < ml then (start + ml, ml) else acc)
        (0, 0)
      if 2 ≤ best.2 then
        let nonOverlappingPart := joinSep " " (currentWords.drop best.1)
        if jsTrim nonOverlappingPart ≠ "" then mergeLoop k rest (merged ++ [nonOverlappingPart])
        else mergeLoop k rest merged
      else mergeLoop k rest (merged ++ [currentText])

/-- Collapse of whitespace runs to single blanks, the global replace the
merge applies before trimming. -/
def collapseWs (s : String) : String :=
  joinSep " " (jsSplitWs s)

/-- mergeTranscripts (transcribe.ts).  An empty input gives the empty
string and a single chunk is returned as is, before any trimming; with
two or more chunks the overlap search runs and the result is collapsed
and trimmed. -/
def mergeTranscripts (transcripts : List String) (overlapSeconds : ℚ) : String :=
  match transcripts with
  | [] => ""
  | [t] => t
  | ts =>
    let wordsInOverlap := ratCeilNat (overlapSeconds * (5 / 2))
    let merged := mergeLoop wordsInOverlap ts []
    jsTrim (collapseWs (joinSep " " merged))

/-! Split geometry (splitAudio in services/audio.ts).  The ffmpeg chunk
extraction is a file effect; the model keeps the start and end second of
every produced segment, the loop structure, and the safety ceiling. -/

/-- The while loop of splitAudio: while the start is before the total
duration, emit the segment from start to min of start plus window and
total, advance by the step, and fail once the segment index passes 100.
Fuel bounds the recursion; 102 units always outlast the ceiling. -/
def splitChunksLoop (total W step : ℚ) : Nat → ℚ → Nat → Except String (List (ℚ × ℚ))
  | 0, _, _ => .error "fuel exhausted"
  | fuel + 1, start, index =>
    if start < total then
      let endTime := min (start + W) total
      if 100 < index + 1 then
        .error "Too many chunks generated, possible infinite loop"
      else
        match splitChunksLoop total W step fuel (start + step) (index + 1) with
        | .ok rest => .ok ((start, endTime) :: rest)
        | .error e => .error e
    else .ok []

/-- splitAudio (services/audio.ts), geometry only: audio no longer than
the window stays a single segment covering the whole file; longer audio
is cut by the loop with step equal to window minus overlap. -/
def splitAudio (totalDuration chunkDuration overlap : ℚ) :
    Except String (List (ℚ × ℚ)) :=
  if totalDuration ≤ chunkDuration then .ok [(0, totalDuration)]
  else splitChunksLoop totalDuration chunkDuration (chunkDuration - overlap) 102 0 0

/-- The dispatch in the transcribing stage of runJob (job-runner.ts):
chunked transcription is chosen exactly when the measured duration
exceeds the configured chunk duration. -/
def useChunkedPath (audioDuration chunkDuration : ℚ) : Bool :=
  chunkDuration < audioDuration

/-- The early return of transcribeChunked (transcribe.ts): audio not
longer than the chunk duration falls back to the single-shot
transcription. -/
def chunkedFallsBackToSingle (audioDuration chunkDuration : ℚ) : Bool :=
  audioDuration ≤ chunkDuration

/-! Marker parser (lib/markdown.ts).  The two regular expressions are
embedded as deterministic character scanners; the document walk, the
open-section map and the error collection follow the source line by
line. -/

/-- Uppercase letter of the marker name class. -/
def isUpperAZ (c : Char) : Bool :=
  'A' ≤ c ∧ c ≤ 'Z'

/-- Continuation character of a marker name. -/
def isNameChar (c : Char) : Bool :=
  isUpperAZ c || c.isDigit || c = '_'

/-- Flag-region character: the word or whitespace class of the flags
group in the start-marker regular expression. -/
def isFlagChar (c : Char) : Bool :=
  isWordChar c || c.isWhitespace

/-- Drop a literal character prefix, or fail. -/
def dropLit (lit : List Char) (cs : List Char) : Option (List Char) :=
  if lit.isPrefixOf cs then some (cs.drop lit.length) else none

/-- Attempt to match the start-marker regular expression at the head of
the character list, returning the name and the raw flags text.  The
optional flags group is greedy, so the decomposition takes the maximal
word-or-whitespace run R after the START keyword: with a run of length
at least 3 that opens with whitespace, closes with a blank and is
followed by the arrow, the flags text is the run without its border
whitespace; otherwise the markers close immediately with a blank and the
arrow.  A run of whitespace only differs from the regular expression in
the captured text but not in the flag list the caller derives. -/
def parseStartAt (cs : List Char) : Option (String × String) := do
  let rest ← dropLit "<!-- WHISPER_JOURNAL:".toList cs
  match rest with
  | [] => none
  | c :: rest1 =>
    if isUpperAZ c then
      let nameTail := rest1.takeWhile isNameChar
      let name := String.mk (c :: nameTail)
      let rest2 ← dropLit ":START".toList (rest1.dropWhile isNameChar)
      let r := rest2.takeWhile isFlagChar
      let after := rest2.dropWhile isFlagChar
      if 3 ≤ r.length ∧ (r.headD ' ').isWhitespace ∧ r.getLastD ' ' = ' ' ∧
          "-->".toList.isPrefixOf after then
        some (name, String.mk ((r.dropLast).dropWhile Char.isWhitespace))
      else if " -->".toList.isPrefixOf rest2 then
        some (name, "")
      else none
    else none

/-- Attempt to match the end-marker regular expression at the head of
the character list, returning the name. -/
def parseEndAt (cs : List Char) : Option String := do
  let rest ← dropLit "<!-- WHISPER_JOURNAL:".toList cs
  match rest with
  | [] => none
  | c :: rest1 =>
    if isUpperAZ c then
      let nameTail := rest1.takeWhile isNameChar
      let _ ← dropLit ":END -->".toList (rest1.dropWhile isNameChar)
      some (String.mk (c :: nameTail))
    else none

/-- First match of the start-marker expression in a line, scanning left
to right as the JavaScript match call does. -/
def findStartMarker : List Char → Option (String × String)
  | [] => none
  | c :: rest =>
    match parseStartAt (c :: rest) with
    | some r => some r
    | none => findStartMarker rest

/-- First match of the end-marker expression in a line. -/
def findEndMarker : List Char → Option String
  | [] => none
  | c :: rest =>
    match parseEndAt (c :: rest) with
    | some r => some r
    | none => findEndMarker rest

/-- Error kinds of the ParseError union (types/index.ts). -/
inductive ParseErrorType where
  | missing_end
  | missing_start
  | invalid_nesting
  | duplicate_section
deriving DecidableEq, Repr

/-- ParseError (types/index.ts). -/
structure ParseError where
  type : ParseErrorType
  section_ : Option String
  line : Option Nat
  message : String
deriving DecidableEq, Repr

/-- ParsedSection (types/index.ts). -/
structure ParsedSection where
  name : String
  content : String
  flags : List String
  startIndex : Nat
  endIndex : Nat
  startLine : Nat
  endLine : Nat
deriving DecidableEq, Repr

/-- Bookkeeping for an open section in the parser map. -/
structure OpenInfo where
  startIndex : Nat
  startLine : Nat
  flags : List String
  contentStart : Nat
deriving DecidableEq, Repr

/-- Lookup in the insertion-ordered open-section map. -/
def openLookup (m : List (String × OpenInfo)) (n : String) : Option OpenInfo :=
  (m.find? (fun p => p.1 = n)).map (·.2)

/-- Removal from the open-section map. -/
def openRemove (m : List (String × OpenInfo)) (n : String) : List (String × OpenInfo) :=
  m.filter (fun p => p.1 ≠ n)

/-- Character-index substring of the document, as the JavaScript slice
between two offsets. -/
def sliceChars (doc : List Char) (a b : Nat) : String :=
  String.mk ((doc.drop a).take (b - a))

/-- The flag list derived from the raw flags text: split on whitespace,
empty pieces removed. -/
def splitFlags (flagsStr : String) : List String :=
  (jsSplitWs flagsStr).filter (· ≠ "")

/-- The line walk of parseSections: lineNum and charIndex advance as in
the source, sections close in document order and errors append as
found. -/
def parseSectionsLoop (doc : List Char) :
    List String → Nat → Nat → List (String × OpenInfo) →
    List ParsedSection → List ParseError →
    List ParsedSection × List ParseError
  | [], _, _, openSections, sections, errors =>
    (sections,
     errors ++ openSections.map fun p =>
       { type := .missing_end, section_ := some p.1, line := some p.2.startLine
         message := "Section " ++ p.1 ++ " opened at line " ++ toString p.2.startLine
           ++ " but never closed" })
  | line :: rest, lineNum, charIndex, openSections, sections, errors =>
    let lineChars := line.toList
    let afterStart :
        List (String × OpenInfo) × List ParseError :=
      match findStartMarker lineChars with
      | none => (openSections, errors)
      | some (name, flagsStr) =>
        match openLookup openSections name with
        | some info =>
          (openSections,
           errors ++ [{ type := .invalid_nesting, section_ := some name
                        line := some (lineNum + 1)
                        message := "Section " ++ name ++ " opened at line "
                          ++ toString info.startLine ++ " but opened again at line "
                          ++ toString (lineNum + 1) }])
        | none =>
          (openSections ++ [(name,
             { startIndex := charIndex, startLine := lineNum + 1
               flags := splitFlags flagsStr
               contentStart := charIndex + line.length + 1 })], errors)
    let afterEnd :
        List (String × OpenInfo) × List ParsedSection × List ParseError :=
      match findEndMarker lineChars with
      | none => (afterStart.1, sections, afterStart.2)
      | some name =>
        match openLookup afterStart.1 name with
        | none =>
          (afterStart.1, sections,
           afterStart.2 ++ [{ type := .missing_start, section_ := some name
                              line := some (lineNum + 1)
                              message := "END marker for " ++ name ++ " at line "
                                ++ toString (lineNum + 1)
                                ++ " without matching START" }])
        | some info =>
          (openRemove afterStart.1 name,
           sections ++ [{ name := name
                          content := jsTrim (sliceChars doc info.contentStart charIndex)
                          flags := info.flags
                          startIndex := info.startIndex
                          endIndex := charIndex + line.length
                          startLine := info.startLine
                          endLine := lineNum + 1 }],
           afterStart.2)
    parseSectionsLoop doc rest (lineNum + 1) (charIndex + line.length + 1)
      afterEnd.1 afterEnd.2.1 afterEnd.2.2

/-- parseSections (lib/markdown.ts): sections and collected errors. -/
def parseSections (markdown : String) : List ParsedSection × List ParseError :=
  parseSectionsLoop markdown.toList (splitNl markdown) 0 0 [] [] []

/-- parseSectionsStrict (lib/markdown.ts): fails with the corruption
message whenever any error was collected. -/
def parseSectionsStrict (markdown : String) : Except String (List ParsedSection) :=
  let r := parseSections markdown
  if r.2.isEmpty then .ok r.1
  else .error ("Markdown structure corrupted:\n"
    ++ joinSep "\n" (r.2.map fun e => "  - " ++ e.message))

/-! Note writer (services/vault.ts).  Timestamps in the row are the
UTC instant; the date-fns-tz projection into the IANA timezone of the
entry is modelled for fixed-offset zones: shift the instant by the
offset and read the civil components with the standard Gregorian
algorithms. -/

/-- Entry kinds (EntryType in types/index.ts). -/
inductive EntryType where
  | brain_dump
  | daily_reflection
  | quick_note
deriving DecidableEq, Repr

/-- Source spelling of an entry kind. -/
def entryTypeStr : EntryType → String
  | .brain_dump => "brain-dump"
  | .daily_reflection => "daily-reflection"
  | .quick_note => "quick-note"

/-- Civil date from a day count since the Unix epoch (proleptic
Gregorian calendar). -/
def civilFromDays (z0 : Int) : Int × Nat × Nat :=
  let z := z0 + 719468
  let era := z.fdiv 146097
  let doe := (z - era * 146097).toNat
  let yoe := (doe - doe / 1460 + doe / 36524 - doe / 146096) / 365
  let y : Int := (yoe : Int) + era * 400
  let doy := doe - (365 * yoe + yoe / 4 - yoe / 100)
  let mp := (5 * doy + 2) / 153
  let d := doy - (153 * mp + 2) / 5 + 1
  let m := if mp < 10 then mp + 3 else mp - 9
  (if m ≤ 2 then y + 1 else y, m, d)

/-- Civil date and time components. -/
structure CivilDateTime where
  year : Int
  month : Nat
  day : Nat
  hour : Nat
  minute : Nat
  second : Nat
deriving DecidableEq, Repr

/-- Civil components of an instant given in seconds since the Unix
epoch. -/
def civilFromEpoch (sec : Int) : CivilDateTime :=
  let days := sec.fdiv 86400
  let sod := (sec - days * 86400).toNat
  let ymd := civilFromDays days
  { year := ymd.1, month := ymd.2.1, day := ymd.2.2
    hour := sod / 3600, minute := sod % 3600 / 60, second := sod % 60 }

/-- Format yyyy-MM-dd of a civil time. -/
def fmtYMD (c : CivilDateTime) : String :=
  padNum 4 c.year.toNat ++ "-" ++ padNum 2 c.month ++ "-" ++ padNum 2 c.day

/-- Format HHmmss of a civil time. -/
def fmtHHmmss (c : CivilDateTime) : String :=
  padNum 2 c.hour ++ padNum 2 c.minute ++ padNum 2 c.second

/-- Format HH:mm:ss of a civil time. -/
def fmtHMS (c : CivilDateTime) : String :=
  padNum 2 c.hour ++ ":" ++ padNum 2 c.minute ++ ":" ++ padNum 2 c.second

/-- Timestamp text the store writes for created_at: the SQLite strftime
default of the schema, an ISO-8601 UTC string without milliseconds. -/
def dbTimestampOfEpoch (sec : Int) : String :=
  fmtYMD (civilFromEpoch sec) ++ "T" ++ fmtHMS (civilFromEpoch sec) ++ "Z"

/-- The XXX offset suffix of the created_local format: Z for UTC,
otherwise a signed hours-and-minutes offset. -/
def offsetXXX (mins : Int) : String :=
  if mins = 0 then "Z"
  else (if mins < 0 then "-" else "+")
    ++ padNum 2 (mins.natAbs / 60) ++ ":" ++ padNum 2 (mins.natAbs % 60)

/-- Month name table for the MMMM format of the title. -/
def monthName : Nat → String
  | 1 => "January" | 2 => "February" | 3 => "March" | 4 => "April"
  | 5 => "May" | 6 => "June" | 7 => "July" | 8 => "August"
  | 9 => "September" | 10 => "October" | 11 => "November" | 12 => "December"
  | _ => ""

/-- Entry fields the note writer reads.  The IANA timezone of the row is
carried as its display name together with its offset in minutes, the
fixed-offset model of the projection. -/
structure EntryNote where
  id : String
  createdAtEpoch : Int
  timezoneName : String
  tzOffsetMinutes : Int
  entryDate : String
  entryType : EntryType
  audioDurationSeconds : Option ℚ
  originalAudioRelpath : Option String

/-- Projection of the creation instant into the timezone of the
entry. -/
def localCivil (e : EntryNote) : CivilDateTime :=
  civilFromEpoch (e.createdAtEpoch + e.tzOffsetMinutes * 60)

/-- generateFilename (services/vault.ts): yyyy-MM-dd, HHmmss, kind. -/
def generateFilename (e : EntryNote) : String :=
  fmtYMD (localCivil e) ++ "-" ++ fmtHHmmss (localCivil e) ++ "-"
    ++ entryTypeStr e.entryType ++ ".md"

/-- Joined path as the node path.join call; the inputs of this model
contain no dot segments, so the normalization of the library call is the
plain concatenation. -/
def pathJoin (a b : String) : String :=
  a ++ "/" ++ b

/-- generateNoteRelpath (services/vault.ts): journal slash filename. -/
def generateNoteRelpath (e : EntryNote) : String :=
  pathJoin "journal" (generateFilename e)

/-- resolveNotePath (lib/db.ts): vault-relative note path made
absolute. -/
def resolveNotePath (relpath vaultPath : String) : String :=
  pathJoin vaultPath relpath

/-- Basename of a slash-separated path (node path.basename on the
inputs of this model). -/
def pathBasename (p : String) : String :=
  (splitSlash p).getLastD p

/-- generateFrontmatter (services/vault.ts).  The audio duration line is
written only when the raw value and its rounding are both truthy, and
the audio file line only for a nonempty relpath, following the
JavaScript truthiness tests of the source. -/
def generateFrontmatter (e : EntryNote) : String :=
  let createdUtc := dbTimestampOfEpoch e.createdAtEpoch
  let createdLocal := fmtYMD (localCivil e) ++ "T" ++ fmtHMS (localCivil e)
    ++ offsetXXX e.tzOffsetMinutes
  let durLines : List String :=
    match e.audioDurationSeconds with
    | none => []
    | some q => if q ≠ 0 ∧ round q ≠ 0
        then ["audio_duration: " ++ toString (round q)] else []
  let fileLines : List String :=
    match e.originalAudioRelpath with
    | none => []
    | some p => if p ≠ "" then ["audio_file: " ++ p] else []
  joinSep "\n"
    (["---",
      "id: " ++ e.id,
      "created: " ++ createdUtc,
      "created_local: " ++ createdLocal,
      "timezone: " ++ e.timezoneName,
      "entry_date: " ++ e.entryDate,
      "type: " ++ entryTypeStr e.entryType]
     ++ durLines ++ fileLines
     ++ ["tags: [journal, " ++ entryTypeStr e.entryType ++ "]", "---"])

/-- Twelve-hour clock text of the h:mm a format. -/
def fmtH12 (c : CivilDateTime) : String :=
  let h12 := if c.hour % 12 = 0 then 12 else c.hour % 12
  toString h12 ++ ":" ++ padNum 2 c.minute ++ " "
    ++ (if c.hour < 12 then "AM" else "PM")

/-- generateTitle (services/vault.ts). -/
def generateTitle (e : EntryNote) : String :=
  let c := localCivil e
  let dateFormatted := monthName c.month ++ " " ++ toString c.day ++ ", "
    ++ toString c.year.toNat
  match e.entryType with
  | .brain_dump => "Brain Dump - " ++ dateFormatted
  | .daily_reflection => "Daily Reflection - " ++ dateFormatted
  | .quick_note => "Quick Note - " ++ fmtH12 c

/-- createSection (lib/markdown.ts): the marker pair around a body, with
the space-separated flags on the start line. -/
def createSection (name content : String) (flags : List String) : String :=
  let flagsStr := if flags.isEmpty then "" else " " ++ " ".intercalate flags
  "<!-- WHISPER_JOURNAL:" ++ name ++ ":START" ++ flagsStr ++ " -->\n"
    ++ content ++ "\n<!-- WHISPER_JOURNAL:" ++ name ++ ":END -->"

/-- generateAudioSection (services/vault.ts): link plus vault embed to
the audio file through the journal-relative audio path. -/
def generateAudioSection (e : EntryNote) : Option String :=
  match e.originalAudioRelpath with
  | none => none
  | some p =>
    if p = "" then none
    else
      let relativeAudioPath := "audio/" ++ pathBasename p
      some ("## Audio\n\n[Audio Recording](" ++ relativeAudioPath ++ ") | ![["
        ++ relativeAudioPath ++ "]]")

/-- Prompt answers as the writer reads them: the text field of each of
the four optional answers. -/
structure PromptAnswers where
  gratitude : Option String
  accomplishments : Option String
  challenges : Option String
  tomorrow : Option String

/-- Generated sections as the writer reads them. -/
structure GeneratedSections where
  JOURNAL : Option String
  AI_REFLECTION : Option String
  SUMMARY : Option String

/-- Truthiness of an optional text: present and nonempty. -/
def truthy : Option String → Bool
  | none => false
  | some t => t ≠ ""

/-- The collapsed transcript wrapper used for brain-dump and
daily-reflection notes. -/
def collapsedTranscript (transcript : String) : String :=
  "<details>\n<summary>Raw Transcript</summary>\n\n" ++ transcript ++ "\n\n</details>"

/-- The fixed leading pieces the writer pushes: frontmatter, title line
and tag line with their separating blanks. -/
def headPart (e : EntryNote) : List String :=
  [generateFrontmatter e, "", "# " ++ generateTitle e, "",
   "#journal #" ++ entryTypeStr e.entryType, ""]

/-- The audio section pieces, when the entry has a source recording. -/
def audioPart (e : EntryNote) : List String :=
  match generateAudioSection e with
  | none => []
  | some s => [createSection "AUDIO" s ["immutable"], ""]

/-- The kind-specific section pieces: the generated journal for a brain
dump, the prompt answers and the reflection for a daily reflection, and
nothing for a quick note. -/
def kindPart (e : EntryNote) (promptAnswers : PromptAnswers)
    (generatedSections : GeneratedSections) : List String :=
  match e.entryType with
  | .brain_dump =>
    match generatedSections.JOURNAL with
    | some j => if j ≠ "" then [createSection "JOURNAL" j ["generated"], ""] else []
    | none => []
  | .daily_reflection =>
    (if truthy promptAnswers.gratitude then
      [createSection "GRATITUDE" ("## Gratitude\n\n" ++ promptAnswers.gratitude.getD "") [], ""]
     else [])
    ++ (if truthy promptAnswers.accomplishments then
      [createSection "ACCOMPLISHMENTS"
        ("## Accomplishments\n\n" ++ promptAnswers.accomplishments.getD "") [], ""]
     else [])
    ++ (if truthy promptAnswers.challenges then
      [createSection "CHALLENGES"
        ("## Challenges & Lessons\n\n" ++ promptAnswers.challenges.getD "") [], ""]
     else [])
    ++ (if truthy promptAnswers.tomorrow then
      [createSection "TOMORROW"
        ("## Tomorrow\u0027s Focus\n\n" ++ promptAnswers.tomorrow.getD "") [], ""]
     else [])
    ++ (match generatedSections.AI_REFLECTION with
      | some r => if r ≠ ""
          then [createSection "AI_REFLECTION" ("## Reflection\n\n" ++ r) ["generated"], ""]
          else []
      | none => [])
  | .quick_note => []

/-- The transcript section pieces: plain with its heading for a quick
note, wrapped in the details element otherwise, always with the
immutable flag. -/
def transcriptPart (e : EntryNote) (transcript : String) : List String :=
  if e.entryType = .quick_note then
    [createSection "TRANSCRIPT" ("## Transcript\n\n" ++ transcript) ["immutable"], ""]
  else
    [createSection "TRANSCRIPT" (collapsedTranscript transcript) ["immutable"], ""]

/-- The closing placeholder section. -/
def relatedPart : List String :=
  [createSection "RELATED" "## Related Entries\n" ["generated"]]

/-- generateNoteContent (services/vault.ts): the full document text as
the join of the pushed pieces. -/
def generateNoteContent (e : EntryNote) (transcript : String)
    (promptAnswers : PromptAnswers) (generatedSections : GeneratedSections) :
    String :=
  joinSep "\n" (headPart e ++ audioPart e ++ kindPart e promptAnswers generatedSections
    ++ transcriptPart e transcript ++ relatedPart)

/-- The output path of writeNote (services/vault.ts): the note relpath
resolved inside the vault. -/
def writeNotePath (e : EntryNote) (vaultPath : String) : String :=
  resolveNotePath (generateNoteRelpath e) vaultPath

/-! Audio-serving route (api/audio/[...path]/route.ts) and audio upload
route (api/entries/[id]/audio/route.ts).  Both are embedded as pure
functions from the request data and the relevant store rows to the
response status and the effects the handler would perform; a file read
or write appears only in the outcome constructor of the successful
branch, so a rejected request provably touches no file. -/

/-- JavaScript String.includes: some contiguous run of the receiver
equals the argument. -/
def containsRun (l n : List Char) : Bool :=
  l.tails.any fun t => n.isPrefixOf t

/-- Stack-based normalization of path components: empty and dot
components vanish, a dot-dot pops the previous component and stays put
at the root, every other component pushes.  This is POSIX resolution of
an absolute path, component-wise. -/
def processStack : List String → List String → List String
  | [], st => st
  | c :: rest, st =>
    if c = "" ∨ c = "." then processStack rest st
    else if c = ".." then processStack rest st.tail
    else processStack rest (c :: st)

/-- Normalized component list of a path. -/
def normComp (l : List String) : List String :=
  (processStack l []).reverse

/-- Model of node path.resolve on an absolute input (the working
directory sits at the filesystem root, so a relative input resolves as
if rooted). -/
def resolveAbs (p : String) : String :=
  "/" ++ joinSep "/" (normComp (splitSlash p))

/-- Outcome of the audio-serving GET handler: either the file read and
response, or a rejection with its HTTP status before any filesystem
access. -/
inductive AudioGetOutcome where
  | served (relativePath fullPath : String)
  | rejected (status : Nat)
deriving DecidableEq, Repr

/-- Real path components: those that survive normalization untouched,
with empty and dot components dropped. -/
def realComps (l : List String) : List String :=
  l.filter fun c => decide (¬ (c = "" ∨ c = "."))

/-- The path checks of the audio GET handler, on the joined relative
path: dot-dot or absolute path 400, a prefix other than the journal
audio directory 403, an escape of the resolve double-check 403, and only
then the file access. -/
def audioGetChecks (vaultPath relativePath : String) : AudioGetOutcome :=
  if containsRun relativePath.toList "..".toList || jsStartsWith relativePath "/" then
    .rejected 400
  else if ¬ jsStartsWith relativePath "journal/audio/" then .rejected 403
  else if ¬ jsStartsWith (resolveAbs (pathJoin vaultPath relativePath))
      (resolveAbs vaultPath) then .rejected 403
  else .served relativePath (pathJoin vaultPath relativePath)

/-- GET /api/audio/[...path]: the guard chain of the source in order —
empty path 400, unconfigured vault 500, then the path checks on the
slash-joined segments. -/
def audioGetRoute (vaultPath? : Option String) (pathSegments : List String) :
    AudioGetOutcome :=
  if pathSegments.isEmpty then .rejected 400
  else
    match vaultPath? with
    | none => .rejected 500
    | some vaultPath => audioGetChecks vaultPath (joinSep "/" pathSegments)

/-- Uploaded file metadata the upload route reads. -/
structure AudioFile where
  name : String
  mimeType : String
deriving DecidableEq, Repr

/-- Outcome of the upload POST handler: status, the entry row after the
handler, the path written if any, and whether queueEntry ran. -/
structure UploadOutcome where
  status : Nat
  entryAfter : Option EntryState
  fileWritten : Option String
  queuedCall : Bool
deriving DecidableEq, Repr

/-- The lenient MIME acceptance of the upload route: the allowed-type
scan degenerates to a prefix test on the string audio, and the fallback
rejects only types without the audio slash prefix. -/
def mimeAccepted (mime : String) : Bool :=
  let allowedTypes := ["audio/webm", "audio/mp3", "audio/mpeg", "audio/mp4",
    "audio/m4a", "audio/x-m4a", "audio/wav", "audio/wave", "audio/ogg", "audio/flac"]
  if ¬ allowedTypes.any (fun t => jsStartsWith mime ((splitSlash t).headD t)) then
    jsStartsWith mime "audio/"
  else true

/-- Model of node path.extname: the suffix of the basename from its last
dot, empty when there is no dot or the only dot leads. -/
def jsExtname (name : String) : String :=
  let cs := (pathBasename name).toList
  let tailRun := cs.reverse.takeWhile (· ≠ '.')
  if tailRun.length = cs.length then ""
  else if cs.length - tailRun.length - 1 = 0 then ""
  else String.mk ('.' :: tailRun.reverse)

/-- POST /api/entries/[id]/audio: the guard chain of the source in order
— unknown id 404, a stage other than pending 400, unconfigured vault
400, missing file 400, non-audio MIME 400; only after every guard does
the handler write the file, record the relpath on the row and queue the
entry. -/
def postAudioUpload (id : String) (entry? : Option EntryState)
    (vaultPath? : Option String) (audioFile? : Option AudioFile) : UploadOutcome :=
  match entry? with
  | none => { status := 404, entryAfter := none, fileWritten := none, queuedCall := false }
  | some entry =>
    if entry.stage ≠ pending then
      { status := 400, entryAfter := some entry, fileWritten := none, queuedCall := false }
    else
      match vaultPath? with
      | none => { status := 400, entryAfter := some entry, fileWritten := none
                  queuedCall := false }
      | some vaultPath =>
        match audioFile? with
        | none => { status := 400, entryAfter := some entry, fileWritten := none
                    queuedCall := false }
        | some audioFile =>
          if ¬ mimeAccepted audioFile.mimeType then
            { status := 400, entryAfter := some entry, fileWritten := none
              queuedCall := false }
          else
            let ext := if jsExtname audioFile.name = "" then ".webm"
              else jsExtname audioFile.name
            let filename := id ++ "-original" ++ ext
            let audioDir := pathJoin (pathJoin vaultPath "journal") "audio"
            let filePath := pathJoin audioDir filename
            let relpath := pathJoin (pathJoin "journal" "audio") filename
            let updated := { entry with originalAudioRelpath := some relpath }
            { status := 200, entryAfter := some (queueEntry updated).2
              fileWritten := some filePath, queuedCall := true }

/-! Concrete inputs used by the theorems below. -/

/-- An entry mid-transcription whose worker died at midnight UTC: the
heartbeat is the ISO-8601 text the worker wrote at 00:00:00 of the same
day on which the recovery tick later runs. -/
def midnightStuckEntry : EntryState :=
  { stage := transcribing
    stageMessage := some "Transcribing audio..."
    errorMessage := none
    lockedBy := some "runner-w1"
    lockedAt := some (toISOString 2026 10 11 0 0 0 0)
    heartbeatAt := some (toISOString 2026 10 11 0 0 0 0)
    originalAudioRelpath := some "journal/audio/e1-original.webm"
    normalizedAudioRelpath := some "journal/audio/e1-normalized.wav"
    audioDurationSeconds := some 30
    rawTranscript := none
    rawTranscriptLockedAt := none }

/-- The same entry with a heartbeat from just before midnight of the
previous day, the only staleness shape the comparison does catch. -/
def crossMidnightStuckEntry : EntryState :=
  { midnightStuckEntry with
    heartbeatAt := some (toISOString 2026 10 10 23 50 0 0) }

/-- An entry whose raw transcript was locked by an earlier run of the
transcribing stage and which recovery has reset to queued, about to be
re-run. -/
def lockedTranscriptEntry : EntryState :=
  { stage := transcribing
    stageMessage := some "Transcribing audio..."
    errorMessage := none
    lockedBy := some "runner-w1"
    lockedAt := some (toISOString 2026 10 11 12 0 0 0)
    heartbeatAt := some (toISOString 2026 10 11 12 0 0 0)
    originalAudioRelpath := some "journal/audio/e1-original.webm"
    normalizedAudioRelpath := some "journal/audio/e1-normalized.wav"
    audioDurationSeconds := some 30
    rawTranscript := some "first transcript"
    rawTranscriptLockedAt := some (toISOString 2026 10 11 11 0 0 0) }

/-- An entry already completed, for the upload-precondition witness. -/
def completedEntry : EntryState :=
  { stage := completed
    stageMessage := some "Complete"
    errorMessage := none
    lockedBy := none
    lockedAt := none
    heartbeatAt := some (toISOString 2026 10 11 12 0 0 0)
    originalAudioRelpath := some "journal/audio/e1-original.webm"
    normalizedAudioRelpath := some "journal/audio/e1-normalized.wav"
    audioDurationSeconds := some 30
    rawTranscript := some "first transcript"
    rawTranscriptLockedAt := some (toISOString 2026 10 11 11 0 0 0) }

/-- A pending entry, for the upload success direction. -/
def pendingEntry : EntryState :=
  { stage := pending
    stageMessage := none
    errorMessage := none
    lockedBy := none
    lockedAt := none
    heartbeatAt := none
    originalAudioRelpath := none
    normalizedAudioRelpath := none
    audioDurationSeconds := none
    rawTranscript := none
    rawTranscriptLockedAt := none }

/-- The text of the claim about the hallucination detector: hello and a
blank, three times. -/
def helloTimes3 : String :=
  String.join (List.replicate 3 "hello ")

/-- The same token repeated often enough for the repetition rule of the
detector: hello and a blank, fifteen times. -/
def helloTimes15 : String :=
  String.join (List.replicate 15 "hello ")

/-- A document with two complete marker pairs of the same section
name. -/
def duplicateSectionDoc : String :=
  "<!-- WHISPER_JOURNAL:TRANSCRIPT:START immutable -->\nhello\n"
    ++ "<!-- WHISPER_JOURNAL:TRANSCRIPT:END -->\n"
    ++ "<!-- WHISPER_JOURNAL:TRANSCRIPT:START -->\nworld\n"
    ++ "<!-- WHISPER_JOURNAL:TRANSCRIPT:END -->"

/-- A document whose only section never closes. -/
def missingEndDoc : String :=
  "<!-- WHISPER_JOURNAL:JOURNAL:START -->\nbody"

/-- A document with an END marker and no open section. -/
def missingStartDoc : String :=
  "x\n<!-- WHISPER_JOURNAL:JOURNAL:END -->"

/-- A document that re-opens an already open section. -/
def invalidNestingDoc : String :=
  "<!-- WHISPER_JOURNAL:JOURNAL:START -->\n"
    ++ "<!-- WHISPER_JOURNAL:JOURNAL:START -->\n"
    ++ "<!-- WHISPER_JOURNAL:JOURNAL:END -->"

/-- A concrete quick-note entry for the note-writer witness, created at
the instant 2026-10-12T00:30:05Z in a zone two hours east of UTC. -/
def witnessEntry : EntryNote :=
  { id := "e1"
    createdAtEpoch := 1791765005
    timezoneName := "Europe/Berlin"
    tzOffsetMinutes := 120
    entryDate := "2026-10-12"
    entryType := .quick_note
    audioDurationSeconds := some 30
    originalAudioRelpath := some "journal/audio/e1-original.webm" }

/-! Theorems, with their supporting lemmas. -/

/-- Elements of a successful split loop: the segment at position j of
the remaining output starts at the running start plus j steps and ends
at the window minimum. -/
lemma splitChunksLoop_get (total W step : ℚ) :
    ∀ (fuel : Nat) (start : ℚ) (index : Nat) (l : List (ℚ × ℚ)),
      splitChunksLoop total W step fuel start index = .ok l →
      ∀ j, j < l.length →
        l.get? j = some (start + j * step, min (start + j * step + W) total) := by
  intro fuel
  induction fuel with
  | zero => intro start index l h; simp [splitChunksLoop] at h
  | succ n ih =>
    intro start index l h j hj
    rw [splitChunksLoop] at h
    by_cases hs : start < total
    · rw [if_pos hs] at h
      by_cases hidx : 100 < index + 1
      · rw [if_pos hidx] at h; exact absurd h (by simp)
      · rw [if_neg hidx] at h
        cases hrec : splitChunksLoop total W step n (start + step) (index + 1) with
        | error e => rw [hrec] at h; exact absurd h (by simp)
        | ok rest =>
          rw [hrec] at h
          have hl : (start, min (start + W) total) :: rest = l := by
            exact Except.ok.inj h
          subst hl
          match j with
          | 0 =>
            simp only [List.get?_cons_zero, Nat.cast_zero, zero_mul, add_zero]
          | Nat.succ j =>
            have hlen : j < rest.length := by
              simpa using Nat.lt_of_succ_lt_succ hj
            rw [List.get?_cons_succ, ih (start + step) (index + 1) rest hrec j hlen]
            refine congrArg some ?_
            rw [Prod.mk.injEq]
            constructor
            · push_cast; ring
            · refine congrArg (fun x => min x total) ?_
              push_cast; ring
    · rw [if_neg hs] at h
      have hl : ([] : List (ℚ × ℚ)) = l := Except.ok.inj h
      subst hl
      simp at hj

/-- A successful split loop never returns more segments than the safety
ceiling leaves room for. -/
lemma splitChunksLoop_length (total W step : ℚ) :
    ∀ (fuel : Nat) (start : ℚ) (index : Nat) (l : List (ℚ × ℚ)),
      splitChunksLoop total W step fuel start index = .ok l →
      index + l.length ≤ 100 ∨ l = [] := by
  intro fuel
  induction fuel with
  | zero => intro start index l h; simp [splitChunksLoop] at h
  | succ n ih =>
    intro start index l h
    rw [splitChunksLoop] at h
    by_cases hs : start < total
    · rw [if_pos hs] at h
      by_cases hidx : 100 < index + 1
      · rw [if_pos hidx] at h; exact absurd h (by simp)
      · rw [if_neg hidx] at h
        cases hrec : splitChunksLoop total W step n (start + step) (index + 1) with
        | error e => rw [hrec] at h; exact absurd h (by simp)
        | ok rest =>
          rw [hrec] at h
          have hl : (start, min (start + W) total) :: rest = l := Except.ok.inj h
          subst hl
          left
          rcases ih (start + step) (index + 1) rest hrec with hle | hnil
          · simp only [List.length_cons]
            omega
          · subst hnil
            simp only [List.length_cons, List.length_nil]
            omega
    · rw [if_neg hs] at h
      right
      exact (Except.ok.inj h).symm

/-- When more than one hundred steps fit strictly inside the total
duration, the split loop runs into the safety ceiling and fails. -/
lemma splitChunksLoop_overflow (total W step : ℚ) (hstep : 0 < step)
    (htot : 100 * step < total) :
    ∀ (fuel index : Nat), 101 - index < fuel → index ≤ 100 →
      splitChunksLoop total W step fuel ((index : ℚ) * step) index =
        .error "Too many chunks generated, possible infinite loop" := by
  intro fuel
  induction fuel with
  | zero => intro index h _; omega
  | succ n ih =>
    intro index hfuel hidx
    have hs : (index : ℚ) * step < total := by
      have h1 : (index : ℚ) * step ≤ 100 * step := by
        have : (index : ℚ) ≤ 100 := by exact_mod_cast hidx
        exact mul_le_mul_of_nonneg_right this (le_of_lt hstep)
      linarith
    rw [splitChunksLoop, if_pos hs]
    by_cases hend : index = 100
    · subst hend
      rw [if_pos (by omega)]
    · rw [if_neg (by omega)]
      have harg : (index : ℚ) * step + step = ((index + 1 : Nat) : ℚ) * step := by
        push_cast
        ring
      rw [harg, ih (index + 1) (by omega) (by omega)]

/-- C9: the transcription dispatch and the chunk geometry.  Audio whose
duration equals the chunk window goes down the single-shot path at both
dispatch points and the splitter keeps such audio whole; strictly longer
audio is cut so that segment j covers the interval from j times the step
to the window minimum against the total; a duration of window plus a
small epsilon yields exactly one full window plus one strictly shorter
tail; a successful split never has more than one hundred segments, and a
duration that needs more than one hundred steps makes the splitter fail
with the ceiling error. -/
theorem c9_chunk_geometry :
    (∀ d : ℚ, useChunkedPath d d = false ∧ chunkedFallsBackToSingle d d = true) ∧
    (∀ total W O : ℚ, total ≤ W → splitAudio total W O = .ok [(0, total)]) ∧
    (∀ (total W O : ℚ) (l : List (ℚ × ℚ)), splitAudio total W O = .ok l →
       ∀ j, j < l.length →
         l.get? j = some ((j : ℚ) * (W - O), min ((j : ℚ) * (W - O) + W) total)) ∧
    (∀ total W O : ℚ, 0 < O → O < W → W < total → total ≤ 2 * (W - O) →
       splitAudio total W O = .ok [(0, W), (W - O, total)] ∧ total - (W - O) < W) ∧
    (∀ (total W O : ℚ) (l : List (ℚ × ℚ)), splitAudio total W O = .ok l →
       l.length ≤ 100) ∧
    (∀ total W O : ℚ, 0 < W - O → W < total → 100 * (W - O) < total →
       splitAudio total W O = .error "Too many chunks generated, possible infinite loop") := by
  refine ⟨?_, ?_, ?_, ?_, ?_, ?_⟩
  · intro d
    constructor
    · simp [useChunkedPath]
    · simp [chunkedFallsBackToSingle]
  · intro total W O h
    simp [splitAudio, h]
  · intro total W O l h j hj
    by_cases hle : total ≤ W
    · rw [splitAudio, if_pos hle] at h
      have hl : [((0 : ℚ), total)] = l := Except.ok.inj h
      subst hl
      have hj0 : j = 0 := by simpa using hj
      subst hj0
      simp only [List.get?_cons_zero, Nat.cast_zero, zero_mul, zero_add]
      rw [min_eq_right hle]
    · rw [splitAudio, if_neg hle] at h
      have := splitChunksLoop_get total W (W - O) 102 0 0 l h j hj
      simpa using this
  · intro total W O hO hOW hWt htail
    have hstep : (0 : ℚ) < W - O := by linarith
    constructor
    · rw [splitAudio, if_neg (by linarith)]
      rw [splitChunksLoop, if_pos (by linarith), if_neg (by omega)]
      rw [splitChunksLoop, if_pos (by linarith), if_neg (by omega)]
      rw [splitChunksLoop, if_neg (by push_neg; linarith)]
      have h1 : min ((0 : ℚ) + W) total = W := by
        rw [min_eq_left (by linarith : (0 : ℚ) + W ≤ total)]
        ring
      have h2 : min ((0 : ℚ) + (W - O) + W) total = total :=
        min_eq_right (by linarith)
      rw [h1, h2]
      norm_num
    · linarith
  · intro total W O l h
    by_cases hle : total ≤ W
    · rw [splitAudio, if_pos hle] at h
      have hl : [((0 : ℚ), total)] = l := Except.ok.inj h
      subst hl
      simp
    · rw [splitAudio, if_neg hle] at h
      rcases splitChunksLoop_length total W (W - O) 102 0 0 l h with hb | hnil
      · omega
      · simp [hnil]
  · intro total W O hstep hWt hover
    rw [splitAudio, if_neg (by linarith)]
    have := splitChunksLoop_overflow total W (W - O) hstep hover 102 0 (by omega) (by omega)
    simpa using this

/-- A contiguous run inside the haystack makes containsRun true. -/
lemma containsRun_of_middle {l n : List Char} (h : n <:+: l) :
    containsRun l n = true := by
  obtain ⟨s, t, rfl⟩ := h
  unfold containsRun
  rw [List.any_eq_true]
  refine ⟨n ++ t, ?_, ?_⟩
  · rw [List.mem_tails]
    exact ⟨s, by simp⟩
  · rw [List.isPrefixOf_iff_prefix]
    exact List.prefix_append n t

/-- Every piece produced by the character split is a contiguous run of
the pending accumulator and the remaining input. -/
lemma mem_splitChAux_middle (sep : Char) :
    ∀ (l acc : List Char) (s : String), s ∈ splitChAux sep l acc →
      s.toList <:+: (acc.reverse ++ l) := by
  intro l
  induction l with
  | nil =>
    intro acc s hs
    simp only [splitChAux, List.mem_singleton] at hs
    subst hs
    exact ⟨[], [], by simp⟩
  | cons c r ih =>
    intro acc s hs
    rw [splitChAux] at hs
    by_cases hc : c = sep
    · rw [if_pos hc] at hs
      rcases List.mem_cons.mp hs with h1 | h2
      · subst h1
        exact ⟨[], c :: r, by simp⟩
      · have h3 := ih [] s h2
        simp only [List.reverse_nil, List.nil_append] at h3
        exact h3.trans ⟨acc.reverse ++ [c], [], by simp⟩
    · rw [if_neg hc] at hs
      have h3 := ih (c :: acc) s hs
      simpa [List.append_assoc] using h3

/-- A dot-dot component of a slash-split path is a dot-dot run of its
text. -/
lemma dotdot_component_middle (rel : String) (h : ".." ∈ splitSlash rel) :
    ('.' :: '.' :: []) <:+: rel.toList := by
  have h1 := mem_splitChAux_middle '/' rel.toList [] ".." h
  simpa using h1

/-- The component normalization processes a concatenation in two
stages. -/
lemma processStack_append : ∀ (a b st : List String),
    processStack (a ++ b) st = processStack b (processStack a st) := by
  intro a
  induction a with
  | nil => intro b st; rfl
  | cons c r ih =>
    intro b st
    simp only [List.cons_append, processStack]
    split_ifs with h1 h2
    · exact ih b st
    · exact ih b st.tail
    · exact ih b (c :: st)

/-- Without dot-dot components the normalization never pops: it pushes
exactly the real components onto the stack. -/
lemma processStack_no_dotdot : ∀ (b st : List String), ".." ∉ b →
    processStack b st = (realComps b).reverse ++ st := by
  intro b
  induction b with
  | nil => intro st _; simp [realComps, processStack]
  | cons c r ih =>
    intro st h
    have hc : c ≠ ".." := fun hh => h (hh ▸ List.mem_cons_self c r)
    have hr : ".." ∉ r := fun hh => h (List.mem_cons_of_mem c hh)
    simp only [processStack]
    by_cases h1 : c = "" ∨ c = "."
    · rw [if_pos h1, ih st hr]
      have hre : realComps (c :: r) = realComps r := by
        rcases h1 with h1 | h1 <;> subst h1 <;> simp [realComps, List.filter_cons]
      rw [hre]
    · rw [if_neg h1, if_neg hc, ih (c :: st) hr]
      have hne := not_or.mp h1
      have hre : realComps (c :: r) = c :: realComps r := by
        simp [realComps, List.filter_cons, hne.1, hne.2]
      rw [hre]
      simp [List.reverse_cons, List.append_assoc]

/-- Appending a dot-dot-free path to any path extends the normalized
component list without reaching back into it. -/
lemma normComp_append_no_dotdot (a b : List String) (h : ".." ∉ b) :
    normComp (a ++ b) = normComp a ++ realComps b := by
  unfold normComp
  rw [processStack_append, processStack_no_dotdot b (processStack a []) h,
    List.reverse_append, List.reverse_reverse]

/-- The character split distributes over a separator placed between two
lists. -/
lemma splitChAux_append (sep : Char) : ∀ (l1 l2 acc : List Char),
    splitChAux sep (l1 ++ sep :: l2) acc
      = splitChAux sep l1 acc ++ splitChAux sep l2 [] := by
  intro l1
  induction l1 with
  | nil =>
    intro l2 acc
    simp [splitChAux]
  | cons c r ih =>
    intro l2 acc
    simp only [List.cons_append, splitChAux, List.append_eq]
    by_cases hc : c = sep
    · rw [if_pos hc, if_pos hc, ih]
      simp
    · rw [if_neg hc, if_neg hc, ih]

/-- The slash split of a slash-joined path is the concatenation of the
two splits. -/
lemma splitSlash_append (a b : String) :
    splitSlash (a ++ "/" ++ b) = splitSlash a ++ splitSlash b := by
  unfold splitSlash
  have hdata : (a ++ "/" ++ b).toList = a.toList ++ '/' :: b.toList := by
    show (a ++ "/" ++ b).data = a.data ++ '/' :: b.data
    rw [String.data_append, String.data_append]
    simp
  rw [hdata, splitChAux_append]

/-- Reduction of the route at a configured vault. -/
lemma audioGetRoute_some (vault : String) (segs : List String) :
    audioGetRoute (some vault) segs =
      if segs.isEmpty then .rejected 400
      else audioGetChecks vault (joinSep "/" segs) := rfl

/-- C4: every path the audio-serving route accepts starts with the
journal audio prefix, is not absolute, contains no dot-dot run and hence
no dot-dot component, and its resolved component list extends the
resolved vault components — the file therefore lies inside the vault;
every other input with a configured vault is rejected with status 400 or
403, and the outcome type serves the file only in the accepted
branch. -/
theorem c4_audio_route_no_escape (vault : String) (segs : List String) :
    (∀ rel full, audioGetRoute (some vault) segs = .served rel full →
       jsStartsWith rel "journal/audio/" = true ∧
       jsStartsWith rel "/" = false ∧
       containsRun rel.toList "..".toList = false ∧
       ".." ∉ splitSlash rel ∧
       full = pathJoin vault rel ∧
       normComp (splitSlash full)
         = normComp (splitSlash vault) ++ realComps (splitSlash rel) ∧
       jsStartsWith (resolveAbs full) (resolveAbs vault) = true) ∧
    (∀ st, audioGetRoute (some vault) segs = .rejected st → st = 400 ∨ st = 403) := by
  constructor
  · intro rel full h
    rw [audioGetRoute_some] at h
    by_cases h0 : segs.isEmpty
    · rw [if_pos h0] at h
      exact absurd h (by simp)
    · rw [if_neg h0] at h
      unfold audioGetChecks at h
      split_ifs at h with h1 h2 h3
      all_goals cases h
      rw [Bool.or_eq_true, not_or] at h1
      have hdd : containsRun (joinSep "/" segs).toList "..".toList = false :=
        Bool.eq_false_iff.mpr h1.1
      have hcomp : ".." ∉ splitSlash (joinSep "/" segs) := by
        intro hmem
        have h4 := containsRun_of_middle (dotdot_component_middle _ hmem)
        rw [show "..".toList = ('.' :: '.' :: []) from rfl] at hdd
        rw [h4] at hdd
        exact absurd hdd (by simp)
      refine ⟨h2, Bool.eq_false_iff.mpr h1.2, hdd, hcomp, rfl, ?_, h3⟩
      show normComp (splitSlash (pathJoin vault (joinSep "/" segs))) = _
      unfold pathJoin
      rw [splitSlash_append, normComp_append_no_dotdot _ _ hcomp]
  · intro st h
    rw [audioGetRoute_some] at h
    by_cases h0 : segs.isEmpty
    · rw [if_pos h0] at h
      injection h with hst
      exact Or.inl hst.symm
    · rw [if_neg h0] at h
      unfold audioGetChecks at h
      split_ifs at h with h1 h2 h3 <;> cases h <;> omega

/-- C4 witness: the theorem evaluated on a well-formed request. -/
theorem c4_witness :
    jsStartsWith "journal/audio/a.wav" "journal/audio/" = true ∧
    jsStartsWith "journal/audio/a.wav" "/" = false ∧
    containsRun "journal/audio/a.wav".toList "..".toList = false ∧
    ".." ∉ splitSlash "journal/audio/a.wav" ∧
    normComp (splitSlash "/vault/journal/audio/a.wav")
      = normComp (splitSlash "/vault")
        ++ realComps (splitSlash "journal/audio/a.wav") ∧
    jsStartsWith (resolveAbs "/vault/journal/audio/a.wav") (resolveAbs "/vault")
      = true := by
  have h := (c4_audio_route_no_escape "/vault" ["journal", "audio", "a.wav"]).1
    "journal/audio/a.wav" "/vault/journal/audio/a.wav" (by decide)
  exact ⟨h.1, h.2.1, h.2.2.1, h.2.2.2.1, h.2.2.2.2.2.1, h.2.2.2.2.2.2⟩

/-- The separator join splits across a concatenation of two nonempty
piece lists. -/
lemma joinSep_append (sep : String) : ∀ (l1 l2 : List String), l1 ≠ [] → l2 ≠ [] →
    joinSep sep (l1 ++ l2) = joinSep sep l1 ++ sep ++ joinSep sep l2 := by
  intro l1
  induction l1 with
  | nil => intro l2 h _; exact absurd rfl h
  | cons x r ih =>
    intro l2 h1 h2
    cases r with
    | nil =>
      cases l2 with
      | nil => exact absurd rfl h2
      | cons y t => simp [joinSep]
    | cons y t =>
      have hr : (y :: t : List String) ≠ [] := by simp
      calc joinSep sep ((x :: y :: t) ++ l2)
          = x ++ sep ++ joinSep sep ((y :: t) ++ l2) := by
            simp only [List.cons_append, joinSep, List.append_eq]
        _ = x ++ sep ++ (joinSep sep (y :: t) ++ sep ++ joinSep sep l2) := by
            rw [ih l2 hr h2]
        _ = joinSep sep (x :: y :: t) ++ sep ++ joinSep sep l2 := by
            simp only [joinSep, String.append_assoc]

/-- C5: the note document shape.  The written file sits at
vault/journal/filename, the filename is the local civil date, the local
civil time and the kind, and the document ends — for every entry and
input — with the immutable-flagged TRANSCRIPT section followed by the
RELATED placeholder: a quick note carries the transcript under its plain
heading as the primary content, while the other two kinds wrap it in the
details element with the Raw Transcript summary. -/
theorem c5_note_document_shape (e : EntryNote) (tr : String) (pa : PromptAnswers)
    (gs : GeneratedSections) (vault : String) :
    writeNotePath e vault = vault ++ "/" ++ ("journal" ++ "/" ++ generateFilename e) ∧
    generateFilename e =
      fmtYMD (localCivil e) ++ "-" ++ fmtHHmmss (localCivil e) ++ "-"
        ++ entryTypeStr e.entryType ++ ".md" ∧
    (e.entryType = .quick_note →
      ∃ p, generateNoteContent e tr pa gs =
        p ++ "\n"
          ++ createSection "TRANSCRIPT" ("## Transcript\n\n" ++ tr) ["immutable"]
          ++ "\n" ++ "\n"
          ++ createSection "RELATED" "## Related Entries\n" ["generated"]) ∧
    (e.entryType ≠ .quick_note →
      ∃ p, generateNoteContent e tr pa gs =
        p ++ "\n"
          ++ createSection "TRANSCRIPT"
              ("<details>\n<summary>Raw Transcript</summary>\n\n" ++ tr ++ "\n\n</details>")
              ["immutable"]
          ++ "\n" ++ "\n"
          ++ createSection "RELATED" "## Related Entries\n" ["generated"]) := by
  have hjoin : ∀ (l : List String), l ≠ [] → ∀ a b : String,
      joinSep "\n" (l ++ [a, "", b]) = joinSep "\n" l ++ "\n" ++ a ++ "\n" ++ "\n" ++ b := by
    intro l hl a b
    rw [joinSep_append "\n" l [a, "", b] hl (by simp)]
    simp only [joinSep]
    rw [show ("" : String) ++ "\n" = "\n" from rfl]
    simp only [String.append_assoc]
  refine ⟨rfl, rfl, ?_, ?_⟩
  · intro hq
    refine ⟨joinSep "\n" (headPart e ++ audioPart e), ?_⟩
    have hk : kindPart e pa gs = [] := by
      rw [kindPart, hq]
    have ht : transcriptPart e tr =
        [createSection "TRANSCRIPT" ("## Transcript\n\n" ++ tr) ["immutable"], ""] := by
      rw [transcriptPart, if_pos hq]
    unfold generateNoteContent
    rw [hk, ht, List.append_nil]
    rw [show headPart e ++ audioPart e
        ++ [createSection "TRANSCRIPT" ("## Transcript\n\n" ++ tr) ["immutable"], ""]
        ++ relatedPart
      = (headPart e ++ audioPart e)
        ++ [createSection "TRANSCRIPT" ("## Transcript\n\n" ++ tr) ["immutable"], "",
            createSection "RELATED" "## Related Entries\n" ["generated"]] from by
      simp [relatedPart]]
    rw [hjoin (headPart e ++ audioPart e) (by simp [headPart])]
  · intro hq
    refine ⟨joinSep "\n" (headPart e ++ audioPart e
      ++ kindPart e pa gs), ?_⟩
    have ht : transcriptPart e tr =
        [createSection "TRANSCRIPT" (collapsedTranscript tr) ["immutable"], ""] := by
      rw [transcriptPart, if_neg hq]
    unfold generateNoteContent
    rw [ht]
    rw [show headPart e ++ audioPart e ++ kindPart e pa gs
        ++ [createSection "TRANSCRIPT" (collapsedTranscript tr) ["immutable"], ""]
        ++ relatedPart
      = (headPart e ++ audioPart e ++ kindPart e pa gs)
        ++ [createSection "TRANSCRIPT" (collapsedTranscript tr) ["immutable"], "",
            createSection "RELATED" "## Related Entries\n" ["generated"]] from by
      simp [relatedPart]]
    rw [hjoin (headPart e ++ audioPart e ++ kindPart e pa gs) (by simp [headPart])]
    rfl

/-- C5 witness: the shape theorem applied to a concrete quick-note
entry created at half past midnight UTC in a zone two hours east, plus
the full literal document, filename and path it produces — the
transcript section carries the immutable flag on its start marker. -/
theorem c5_witness :
    generateFilename witnessEntry = "2026-10-12-023005-quick-note.md" ∧
    writeNotePath witnessEntry "/vault"
      = "/vault" ++ "/" ++ ("journal" ++ "/" ++ generateFilename witnessEntry) ∧
    (∃ p, generateNoteContent witnessEntry "hi there" ⟨none, none, none, none⟩
        ⟨none, none, none⟩ =
      p ++ "\n"
        ++ createSection "TRANSCRIPT" ("## Transcript\n\n" ++ "hi there") ["immutable"]
        ++ "\n" ++ "\n"
        ++ createSection "RELATED" "## Related Entries\n" ["generated"]) ∧
    createSection "TRANSCRIPT" ("## Transcript\n\n" ++ "hi there") ["immutable"]
      = "<!-- WHISPER_JOURNAL:TRANSCRIPT:START immutable -->\n## Transcript\n\nhi there\n<!-- WHISPER_JOURNAL:TRANSCRIPT:END -->" := by
  refine ⟨by decide, ?_, ?_, by decide⟩
  · exact (c5_note_document_shape witnessEntry "hi there" ⟨none, none, none, none⟩
      ⟨none, none, none⟩ "/vault").1
  · exact (c5_note_document_shape witnessEntry "hi there" ⟨none, none, none, none⟩
      ⟨none, none, none⟩ "/vault").2.2.1 (by decide)

/-- C9 witness: the geometry theorem evaluated at the default window of
sixty seconds with five seconds of overlap — equal duration stays
single-shot and whole, sixty-one seconds yield one full window plus a
six-second tail, and a duration needing more than one hundred steps of a
one-second step fails. -/
theorem c9_witness :
    useChunkedPath 60 60 = false ∧
    splitAudio 60 60 5 = .ok [(0, 60)] ∧
    splitAudio 61 60 5 = .ok [(0, 60), (60 - 5, 61)] ∧
    (61 : ℚ) - (60 - 5) < 60 ∧
    splitAudio 150 2 1 = .error "Too many chunks generated, possible infinite loop" :=
  ⟨(c9_chunk_geometry.1 60).1,
   c9_chunk_geometry.2.1 60 60 5 (by norm_num),
   (c9_chunk_geometry.2.2.2.1 61 60 5 (by norm_num) (by norm_num) (by norm_num)
     (by norm_num)).1,
   (c9_chunk_geometry.2.2.2.1 61 60 5 (by norm_num) (by norm_num) (by norm_num)
     (by norm_num)).2,
   c9_chunk_geometry.2.2.2.2.2 150 2 1 (by norm_num) (by norm_num) (by norm_num)⟩

/-- C1: the code violates cancel monotonicity.  In the interleaving in
which the user cancels while the whisper child of the transcribing stage
is live, requestCancel is accepted from stage transcribing (state five
of the trace has stage cancel_requested), the SIGTERM makes the child
exit nonzero, the transcribe promise rejects, and the catch handler of
processNextJob — the very next store write — moves the entry from
cancel_requested to failed, not cancelled. -/
theorem c1_cancel_kill_ends_failed :
    (cancelKillTrace.get? 5).map EntryState.stage = some cancel_requested ∧
    (cancelKillTrace.get? 6).map EntryState.stage = some failed ∧
    cancelKillTrace.get? 6 =
      (cancelKillTrace.get? 5).map (failCatch "whisper.cpp failed with code null: ") ∧
    (tryLockJob "runner-w1" "2026-10-11T12:00:00.000Z" uploadedEntry).1 = true ∧
    (requestCancel (setStage transcribing
      (normalizeDone "journal/audio/e1-normalized.wav" 30
        (setStage normalizing
          (tryLockJob "runner-w1" "2026-10-11T12:00:00.000Z" uploadedEntry).2)))).1 = true := by
  refine ⟨by decide, by decide, by decide, by decide, by decide⟩

/-- C2: the code misses same-day stuck entries.  The worker writes the
heartbeat as an ISO-8601 string with a T separator while the SQLite
threshold uses a blank, so on a shared date prefix the heartbeat always
compares textually larger: an entry stuck in transcribing since
midnight, 715 minutes before the 11:55:00 threshold of a 12:00:00 tick,
is not selected by the stuck query and hence never reset, although the
claim requires every running entry with a heartbeat older than five
minutes to be reset.  A heartbeat from the previous civil day is
selected, confirming the embedding of the comparison. -/
theorem c2_same_day_stale_not_selected :
    midnightStuckEntry.heartbeatAt = some "2026-10-11T00:00:00.000Z" ∧
    sqliteDatetime 2026 10 11 11 55 0 = "2026-10-11 11:55:00" ∧
    midnightStuckEntry.stage ∈ runningStages ∧
    minutesOfDay 11 55 - minutesOfDay 0 0 = 715 ∧
    stuckSelect (sqliteDatetime 2026 10 11 11 55 0) midnightStuckEntry = false ∧
    stuckSelect (sqliteDatetime 2026 10 11 0 1 0) crossMidnightStuckEntry = true := by
  refine ⟨by decide, by decide, by decide, by decide, by decide, by decide⟩

/-- C3: the code does not protect a locked raw transcript.  The
transcribing stage body stores whatever the tool returned and re-stamps
the lock unconditionally, so re-running the stage on an entry whose
rawTranscriptLockedAt is already set replaces the first observed value;
the final conjunct shows the write ignores the lock for every entry
state. -/
theorem c3_rerun_overwrites_locked_transcript :
    lockedTranscriptEntry.rawTranscriptLockedAt = some (toISOString 2026 10 11 11 0 0 0) ∧
    lockedTranscriptEntry.rawTranscript = some "first transcript" ∧
    (transcribeDone "second transcript" "2026-10-11T12:05:00.000Z"
      lockedTranscriptEntry).rawTranscript = some "second transcript" ∧
    (("second transcript" : String) == "first transcript") = false ∧
    ∀ (e : EntryState) (text now : String),
      (transcribeDone text now e).rawTranscript = some text :=
  ⟨by decide, by decide, by decide, by decide, fun _ _ _ => rfl⟩

/-- C3 witness: the unconditional overwrite evaluated on a concrete
entry. -/
theorem c3_witness :
    (transcribeDone "second transcript" "2026-10-11T12:05:00.000Z"
      lockedTranscriptEntry).rawTranscript = some "second transcript" :=
  c3_rerun_overwrites_locked_transcript.2.2.1

/-- C6 counterexample: the overlap-aware merge of the single chunk with
surrounding blanks returns it verbatim, which differs from the trimmed
input the claim promises. -/
theorem c6_single_chunk_not_trimmed :
    mergeTranscripts [" hello "] 5 = " hello " ∧
    jsTrim " hello " = "hello" ∧
    mergeTranscripts [" hello "] 5 ≠ jsTrim " hello " := by
  refine ⟨by decide, by decide, by decide⟩

/-- C6 amended: the merge of a single-chunk input returns the input
unchanged, and therefore equals the trimmed input exactly when the input
is already trimmed — in particular the merge is idempotent on
already-trimmed single-chunk input. -/
theorem c6_single_chunk_returned_verbatim (t : String) (o : ℚ) :
    mergeTranscripts [t] o = t ∧ (jsTrim t = t → mergeTranscripts [t] o = jsTrim t) := by
  refine ⟨rfl, fun h => ?_⟩
  rw [h]
  exact rfl


/-- C6 witness: the amended theorem evaluated on a trimmed chunk. -/
theorem c6_witness :
    (jsTrim "hello" = "hello") ∧ mergeTranscripts ["hello"] 5 = jsTrim "hello" :=
  ⟨by decide, (c6_single_chunk_returned_verbatim "hello" 5).2 (by decide)⟩

/-- C7 counterexample: on hello blank repeated three times the detector
returns false at chunk duration one — the claim asserts it returns true
with a repetition reason for every chunk duration. -/
theorem c7_three_hellos_not_flagged :
    (detectHallucination helloTimes3 1).isHallucination = false := by
  have hlen : helloTimes3.length = 18 := by decide
  unfold detectHallucination
  rw [if_neg (by decide : ¬ (jsTrim helloTimes3).length = 0),
    if_neg (by rw [hlen]; norm_num :
      ¬ ((helloTimes3.length : ℚ) < 1 * 5 * (3 / 10)))]
  decide

/-- C7 amended: hello blank repeated three times is never reported as
repetition — it passes the detector for short chunk durations and trips
only the length rule, with an output-too-short reason, for long ones;
the repetition rule needs a phrase of five to twelve tokens repeating at
least three times, as hello blank repeated fifteen times shows, and only
that rule produces a reason referencing repetition. -/
theorem c7_detector_on_repeated_hello :
    (detectHallucination helloTimes3 1).isHallucination = false ∧
    (detectHallucination helloTimes3 100).isHallucination = true ∧
    (detectHallucination helloTimes3 100).reason =
      some "Output too short: 18 chars for 100s audio (expected ~500)" ∧
    (detectHallucination helloTimes15 30).isHallucination = true ∧
    (detectHallucination helloTimes15 30).reason =
      some "Phrase repeated 3 times: \"hello hello hello hello hello\"" := by
  have hlen3 : helloTimes3.length = 18 := by decide
  have hlen15 : helloTimes15.length = 90 := by decide
  have htrim3 : ¬ (jsTrim helloTimes3).length = 0 := by decide
  have htrim15 : ¬ (jsTrim helloTimes15).length = 0 := by decide
  have hshort1 : ¬ ((helloTimes3.length : ℚ) < 1 * 5 * (3 / 10)) := by
    rw [hlen3]; norm_num
  have hshort100 : ((helloTimes3.length : ℚ) < 100 * 5 * (3 / 10)) := by
    rw [hlen3]; norm_num
  have hshort30 : ¬ ((helloTimes15.length : ℚ) < 30 * 5 * (3 / 10)) := by
    rw [hlen15]; norm_num
  have r100 : ratToFixed0 100 = "100" := by
    have : round ((100 : ℚ)) = 100 := by rw [round_eq]; norm_num
    unfold ratToFixed0
    rw [this]
    decide
  have r500 : ratToFixed0 ((100 : ℚ) * 5) = "500" := by
    have : round ((100 : ℚ) * 5) = 500 := by rw [round_eq]; norm_num
    unfold ratToFixed0
    rw [this]
    decide
  refine ⟨?_, ?_, ?_, ?_, ?_⟩
  · unfold detectHallucination
    rw [if_neg htrim3, if_neg hshort1]
    decide
  · unfold detectHallucination
    rw [if_neg htrim3, if_pos hshort100]
  · unfold detectHallucination
    rw [if_neg htrim3, if_pos hshort100]
    rw [hlen3, r100, r500]
    decide
  · unfold detectHallucination
    rw [if_neg htrim15, if_neg hshort30]
    decide
  · unfold detectHallucination
    rw [if_neg htrim15, if_neg hshort30]
    decide

/-- C8 counterexample: a document with two complete marker pairs of the
same name collects no error at all and passes the strict parse with both
sections, while the claim requires the strict parse to fail with a
duplicate-section error. -/
theorem c8_duplicate_sections_strict_ok :
    (parseSections duplicateSectionDoc).2 = [] ∧
    (parseSectionsStrict duplicateSectionDoc).toOption.isSome = true ∧
    ((parseSectionsStrict duplicateSectionDoc).toOption.map (fun l => l.map (·.name)))
      = some ["TRANSCRIPT", "TRANSCRIPT"] := by
  refine ⟨by decide, by decide, by decide⟩

/-- C8 amended: the parser collects exactly the kinds missing_end (a
START with no matching END), missing_start (an END with no open START)
and invalid_nesting (re-opening an open name); the duplicate_section
kind exists in the error type but is never produced, a document whose
name appears as two complete marker pairs collects no error and
strict-parses successfully, and a strict parse fails whenever at least
one error was collected. -/
theorem c8_error_kinds_collected :
    ((parseSections missingEndDoc).2.map (·.type) = [ParseErrorType.missing_end]) ∧
    ((parseSections missingStartDoc).2.map (·.type) = [ParseErrorType.missing_start]) ∧
    ((parseSections invalidNestingDoc).2.map (·.type) = [ParseErrorType.invalid_nesting]) ∧
    (parseSections duplicateSectionDoc).2 = [] ∧
    (parseSectionsStrict duplicateSectionDoc).toOption.isSome = true ∧
    (parseSectionsStrict missingEndDoc).toOption.isSome = false ∧
    ∀ (doc : String), (parseSections doc).2 ≠ [] →
      (parseSectionsStrict doc).toOption.isSome = false := by
  refine ⟨by decide, by decide, by decide, by decide, by decide, by decide, ?_⟩
  intro doc h
  unfold parseSectionsStrict
  rw [if_neg (fun hh => h (List.isEmpty_iff.mp hh))]
  rfl

/-- C8 witness: the strictness conjunct evaluated on the unclosed
document. -/
theorem c8_witness :
    (parseSections missingEndDoc).2 ≠ [] ∧
    (parseSectionsStrict missingEndDoc).toOption.isSome = false :=
  ⟨by decide, (c8_error_kinds_collected).2.2.2.2.2.2 missingEndDoc (by decide)⟩

/-- C10: uploading audio to an entry whose stage is not pending returns
status 400 with the row unchanged, no file written and no queue call;
conversely a 200 response implies the stage was pending.  The guard runs
before the form data is read, so no effect at all is performed on the
reject path. -/
theorem c10_upload_requires_pending (id : String) (e : EntryState)
    (vp : Option String) (af : Option AudioFile) :
    (e.stage ≠ pending →
      postAudioUpload id (some e) vp af =
        { status := 400, entryAfter := some e, fileWritten := none, queuedCall := false }) ∧
    ((postAudioUpload id (some e) vp af).status = 200 → e.stage = pending) := by
  constructor
  · intro h
    simp [postAudioUpload, h]
  · intro h
    by_contra hne
    simp [postAudioUpload, hne] at h

/-- C10 witness: the theorem evaluated on a completed entry and on the
success path of a pending entry. -/
theorem c10_witness :
    postAudioUpload "e1" (some completedEntry) (some "/vault")
        (some { name := "a.wav", mimeType := "audio/wav" }) =
      { status := 400, entryAfter := some completedEntry, fileWritten := none
        queuedCall := false } ∧
    pendingEntry.stage = pending :=
  ⟨(c10_upload_requires_pending "e1" completedEntry (some "/vault")
      (some { name := "a.wav", mimeType := "audio/wav" })).1 (by decide),
   (c10_upload_requires_pending "e1" pendingEntry (some "/vault")
      (some { name := "a.wav", mimeType := "audio/wav" })).2 (by decide)⟩

end Muesli
